import Mathlib

/-!
Verification of the smart-tabs tab-reordering extension (src/src/extension.ts).

The development shallowly embeds the extension's pure decision logic:

* `Tab` models a `vscode.Tab` restricted to the fields the code reads
  (`label`, `isPinned`, `isActive`); a tab group snapshot is a `List Tab`.
* `getPositionAfterLastPinnedTab` and `getActiveTabIndex` translate the
  two helper functions literally, keeping the loop state (`lastPinnedIndex`
  starts at `-1`, so the pinned scan is `Int`-valued; the active-tab scan
  returns `0` when no tab is active).
* `moveTab` translates the body of the `smart-tabs.moveTab` command handler
  after the active-group check, producing a `MoveDecision` value in place of
  the `moveActiveEditor` side effect.  The handler's `activeTab?.isPinned`
  test is rendered with `Option.map`/`Option.getD` (an absent active tab is
  falsy in JS).  A `Start` move carries the 0-based landing position
  `offset` (the source passes `offset + 1` because `moveActiveEditor` is
  1-based); an `End` move carries offset `0`.
* The debouncer (`moveTabWithDebounce`) becomes an explicit state machine on
  `DebounceState`; the `setTimeout` callback is `timerElapse`, and
  `debounceRun` executes a timeline of event timestamps, running a due
  timer callback before each event.
* `loadConfigurations` / `setupEventListeners` / `onConfigChange` embed the
  configuration-reload path over an explicit `ExtensionState` in place of the
  module-level globals; the host configuration store is modelled as optional
  per-key values, with `config.get key default` returning the stored value
  when present and the default otherwise.
-/

/-- One tab of the active tab group: the fields of `vscode.Tab` the
extension reads. -/
structure Tab where
  label : String
  isPinned : Bool
  isActive : Bool
deriving DecidableEq

/-- The reaction-event setting.  The `package.json` manifest declares the
five values `onedit`, `onsave`, `onfocus`, `onopen`, `none`. -/
inductive ReactionEvent where
  | onedit
  | onsave
  | onfocus
  | onopen
  | none
deriving DecidableEq

/-- The host event streams the extension can subscribe to. -/
inductive EventStream where
  | contentChange
  | preSave
  | activeTabChange
  | tabOpened
deriving DecidableEq

/-- The configuration values the decision logic reads (the globals
`fixedTabs` and `activeFirst`). -/
structure Config where
  fixedTabs : Nat
  activeFirst : Bool
deriving DecidableEq

/-- Reason tags distinguishing the early returns of the command handler
(the spec's `NoMove` reasons). -/
inductive NoMoveReason where
  | notFound
  | pinned
  | withinFixedBand
deriving DecidableEq

/-- Which edge a move targets. -/
inductive Edge where
  | Start
  | End
deriving DecidableEq

/-- The decision the command handler reaches: abort with a reason, or move
the active tab to an edge at a given offset. -/
inductive MoveDecision where
  | noMove (reason : NoMoveReason)
  | moveTo (edge : Edge) (offset : Int)
deriving DecidableEq

/-- The loop of `getPositionAfterLastPinnedTab`: `lastPinnedIndex` is
updated to the current index while tabs are pinned and the loop breaks at
the first unpinned tab. -/
def pinnedScan : List Tab → Int → Nat → Int
  | [], lastPinnedIndex, _ => lastPinnedIndex
  | t :: rest, lastPinnedIndex, i =>
      if t.isPinned then pinnedScan rest (i : Int) (i + 1) else lastPinnedIndex

/-- `getPositionAfterLastPinnedTab`: position right after the last tab of
the leading pinned run (`lastPinnedIndex` starts at `-1`, result is
`lastPinnedIndex + 1`). -/
def getPositionAfterLastPinnedTab (tabs : List Tab) : Int :=
  pinnedScan tabs (-1) 0 + 1

/-- The loop of `getActiveTabIndex`: scan for the first tab with
`isActive`; return its index from the left or from the right; `0` when no
tab is active. -/
def activeTabLoop (tabsLength : Nat) (fromLeft : Bool) : List Tab → Nat → Nat
  | [], _ => 0
  | t :: rest, i =>
      if t.isActive then
        (if fromLeft then i else tabsLength - (i + 1))
      else
        activeTabLoop tabsLength fromLeft rest (i + 1)

/-- `getActiveTabIndex`: zero-based position of the active tab counted
from the chosen edge. -/
def getActiveTabIndex (tabs : List Tab) (fromLeft : Bool) : Nat :=
  activeTabLoop tabs.length fromLeft tabs 0

/-- The `smart-tabs.moveTab` command handler after the active-group check:
abort when the active tab is pinned, otherwise compare the active tab's
position from the configured edge against the fixed band and either abort
or emit the move decision. -/
def moveTab (tabs : List Tab) (cfg : Config) : MoveDecision :=
  if ((tabs.find? (fun t => t.isActive)).map (fun t => t.isPinned)).getD false then
    MoveDecision.noMove NoMoveReason.pinned
  else
    if cfg.activeFirst then
      if (getActiveTabIndex tabs cfg.activeFirst : Int) <
          (cfg.fixedTabs : Int) + getPositionAfterLastPinnedTab tabs then
        MoveDecision.noMove NoMoveReason.withinFixedBand
      else
        MoveDecision.moveTo Edge.Start (getPositionAfterLastPinnedTab tabs)
    else
      if (getActiveTabIndex tabs cfg.activeFirst : Int) < (cfg.fixedTabs : Int) then
        MoveDecision.noMove NoMoveReason.withinFixedBand
      else
        MoveDecision.moveTo Edge.End 0

/-- The debouncer's state: the global `isDebouncing` flag together with the
absolute time at which the pending `setTimeout` callback is due (meaningful
only while `isDebouncing` is set). -/
structure DebounceState where
  isDebouncing : Bool
  expiry : Nat
deriving DecidableEq

/-- The scheduled `setTimeout` callback: it clears `isDebouncing`. -/
def timerElapse (s : DebounceState) : DebounceState :=
  { s with isDebouncing := false }

/-- `moveTabWithDebounce` at time `now`: with delay `0` the command fires
immediately and the state is untouched; otherwise an event is dropped while
`isDebouncing` holds, and otherwise fires, sets `isDebouncing` and schedules
the timer for `now + delayMs`.  The returned `Bool` records whether the
`smart-tabs.moveTab` command was executed. -/
def moveTabWithDebounce (delayMs : Nat) (s : DebounceState) (now : Nat) :
    DebounceState × Bool :=
  if delayMs = 0 then
    (s, true)
  else if s.isDebouncing then
    (s, false)
  else
    ({ isDebouncing := true, expiry := now + delayMs }, true)

/-- Run a timeline of event timestamps (ascending): before each event a due
timer callback runs, then the event is handed to `moveTabWithDebounce`.
Returns the timestamps at which the wrapped command actually fired. -/
def debounceRun (delayMs : Nat) : DebounceState → List Nat → List Nat
  | _, [] => []
  | s, t :: rest =>
      let s0 := if s.isDebouncing ∧ s.expiry ≤ t then timerElapse s else s
      let step := moveTabWithDebounce delayMs s0 t
      if step.2 then t :: debounceRun delayMs step.1 rest
      else debounceRun delayMs step.1 rest

/-- The extension's module-level mutable state: the four configuration
globals, the `isDebouncing` flag and the `disposables` subscription list. -/
structure ExtensionState where
  fixedTabs : Nat
  activeFirst : Bool
  debounceDelay : Nat
  reactionEvent : ReactionEvent
  isDebouncing : Bool
  disposables : List EventStream
deriving DecidableEq

/-- The host configuration store for the `smart-tabs` section: each key
either holds a user-stored value or is absent.  `config.get key default`
returns the stored value when present and `default` otherwise. -/
structure HostConfig where
  fixedTabs : Option Nat
  activeFirst : Option Bool
  debounceDelay : Option Nat
  reactionEvent : Option ReactionEvent
deriving DecidableEq

/-- `loadConfigurations`: overwrite the four configuration globals with
`config.get(key, DEFAULT)`; the defaults are the constants `FIXED_TABS = 3`,
`ACTIVE_FIRST = true`, `DEFAULT_DEBOUNCE_DELAY = 300`,
`DEFAULT_REACTION_EVENT = onedit`.  Nothing else in the state is touched. -/
def loadConfigurations (cfg : HostConfig) (s : ExtensionState) : ExtensionState :=
  { s with
    fixedTabs := cfg.fixedTabs.getD 3
    activeFirst := cfg.activeFirst.getD true
    debounceDelay := cfg.debounceDelay.getD 300
    reactionEvent := cfg.reactionEvent.getD ReactionEvent.onedit }

/-- The `switch (reactionEvent)` of `setupEventListeners`: `onfocus` and
`onsave` get their own listeners; every other value falls to the `default`
branch, which subscribes `onDidChangeTextDocument` (the content-change
stream). -/
def routeEvent (re : ReactionEvent) : EventStream :=
  match re with
  | ReactionEvent.onfocus => EventStream.activeTabChange
  | ReactionEvent.onsave => EventStream.preSave
  | _ => EventStream.contentChange

/-- `setupEventListeners`: dispose every existing subscription, then push
the single listener selected by `reactionEvent`. -/
def setupEventListeners (s : ExtensionState) : ExtensionState :=
  { s with disposables := [routeEvent s.reactionEvent] }

/-- The `onDidChangeConfiguration` handler body: reload the configuration
globals, then rebuild the event listeners. -/
def onConfigChange (cfg : HostConfig) (s : ExtensionState) : ExtensionState :=
  setupEventListeners (loadConfigurations cfg s)

/-- The flags of a tab: everything the decision logic can observe. -/
def tabFlags (t : Tab) : Bool × Bool := (t.isPinned, t.isActive)

lemma pinnedScan_eq (tabs : List Tab) :
    ∀ (last : Int) (i : Nat), pinnedScan tabs last i =
      if (tabs.takeWhile (fun t => t.isPinned)).length = 0 then last
      else (i : Int) + ((tabs.takeWhile (fun t => t.isPinned)).length : Int) - 1 := by
  induction tabs with
  | nil => intro last i; simp [pinnedScan]
  | cons t rest ih =>
      intro last i
      by_cases hp : t.isPinned
      · rw [show pinnedScan (t :: rest) last i = pinnedScan rest (i : Int) (i + 1) by
            simp [pinnedScan, hp]]
        rw [ih, List.takeWhile_cons (fun t => t.isPinned) t rest, if_pos hp]
        simp only [List.length_cons]
        split_ifs <;> first | omega | simp_all
      · simp [pinnedScan, hp, List.takeWhile_cons_of_neg]

lemma getPositionAfterLastPinnedTab_eq (tabs : List Tab) :
    getPositionAfterLastPinnedTab tabs =
      ((tabs.takeWhile (fun t => t.isPinned)).length : Int) := by
  rw [getPositionAfterLastPinnedTab, pinnedScan_eq]
  split <;> omega

lemma takeWhile_indep_post (pre : List Tab) (a : Tab) (post post' : List Tab)
    (hp : a.isPinned = false) :
    (pre ++ a :: post).takeWhile (fun t => t.isPinned) =
      (pre ++ a :: post').takeWhile (fun t => t.isPinned) := by
  induction pre with
  | nil => simp [List.takeWhile_cons_of_neg, hp]
  | cons q qs ih =>
      by_cases hq : q.isPinned
      · simp only [List.cons_append, List.takeWhile_cons_of_pos hq, ih]
      · simp [List.takeWhile_cons_of_neg, hq]

lemma takeWhile_le_of_unpinned (pre : List Tab) (a : Tab) (post : List Tab)
    (hp : a.isPinned = false) :
    ((pre ++ a :: post).takeWhile (fun t => t.isPinned)).length ≤ pre.length := by
  induction pre with
  | nil => simp [List.takeWhile_cons_of_neg, hp]
  | cons q qs ih =>
      by_cases hq : q.isPinned
      · rw [List.cons_append, List.takeWhile_cons_of_pos hq]
        simpa using ih
      · simp [List.takeWhile_cons_of_neg, hq]

lemma find?_isActive_decomp (pre : List Tab) (a : Tab) (post : List Tab)
    (hpre : ∀ t ∈ pre, t.isActive = false) (ha : a.isActive = true) :
    (pre ++ a :: post).find? (fun t => t.isActive) = some a := by
  induction pre with
  | nil => simp [List.find?_cons_of_pos, ha]
  | cons p ps ih =>
      rw [List.cons_append, List.find?_cons_of_neg]
      · exact ih fun t ht => hpre t (by simp [ht])
      · simp [hpre p (by simp)]

lemma find?_isActive_none (tabs : List Tab)
    (h : ∀ t ∈ tabs, t.isActive = false) :
    tabs.find? (fun t => t.isActive) = none := by
  rw [List.find?_eq_none]
  intro x hx
  simp [h x hx]

lemma activeTabLoop_decomp (L : Nat) (fl : Bool) (pre : List Tab) (a : Tab)
    (post : List Tab) (hpre : ∀ t ∈ pre, t.isActive = false)
    (ha : a.isActive = true) :
    ∀ i, activeTabLoop L fl (pre ++ a :: post) i =
      if fl then i + pre.length else L - (i + pre.length + 1) := by
  induction pre with
  | nil =>
      intro i
      simp only [List.nil_append, activeTabLoop, ha, if_true, List.length_nil]
      split <;> omega
  | cons p ps ih =>
      intro i
      have hp : p.isActive = false := hpre p (by simp)
      simp only [List.cons_append, activeTabLoop, hp, Bool.false_eq_true, if_false,
        List.append_eq]
      rw [ih (fun t ht => hpre t (by simp [ht])) (i + 1)]
      simp only [List.length_cons]
      split <;> omega

lemma activeTabLoop_none (L : Nat) (fl : Bool) (tabs : List Tab)
    (h : ∀ t ∈ tabs, t.isActive = false) :
    ∀ i, activeTabLoop L fl tabs i = 0 := by
  induction tabs with
  | nil => intro i; rfl
  | cons t rest ih =>
      intro i
      simp only [activeTabLoop, h t (by simp), Bool.false_eq_true, if_false]
      exact ih (fun x hx => h x (by simp [hx])) (i + 1)

lemma getActiveTabIndex_decomp (fl : Bool) (pre : List Tab) (a : Tab)
    (post : List Tab) (hpre : ∀ t ∈ pre, t.isActive = false)
    (ha : a.isActive = true) :
    getActiveTabIndex (pre ++ a :: post) fl =
      if fl then pre.length else (pre ++ a :: post).length - (pre.length + 1) := by
  rw [getActiveTabIndex, activeTabLoop_decomp _ fl pre a post hpre ha 0]
  split <;> omega

/-- C3: `getPositionAfterLastPinnedTab` counts exactly the leading tabs with
`isPinned = true`, stopping at the first unpinned tab; in particular a
pinned tab appearing after an unpinned one (anything in `post`) contributes
nothing to the count. -/
theorem pinned_run_is_leading_count :
    (∀ tabs : List Tab, getPositionAfterLastPinnedTab tabs =
        ((tabs.takeWhile (fun t => t.isPinned)).length : Int)) ∧
    (∀ (pre : List Tab) (a : Tab) (post post' : List Tab), a.isPinned = false →
        getPositionAfterLastPinnedTab (pre ++ a :: post) =
          getPositionAfterLastPinnedTab (pre ++ a :: post')) := by
  refine ⟨getPositionAfterLastPinnedTab_eq, ?_⟩
  intro pre a post post' hp
  rw [getPositionAfterLastPinnedTab_eq, getPositionAfterLastPinnedTab_eq,
    takeWhile_indep_post pre a post post' hp]

/-- Witness for C3: a pinned tab after an unpinned one is not counted (the
pinned `"q"` after the unpinned `"u"` leaves the count unchanged). -/
theorem pinned_run_is_leading_count_witness :
    getPositionAfterLastPinnedTab
        [{ label := "p", isPinned := true, isActive := false },
         { label := "u", isPinned := false, isActive := false },
         { label := "q", isPinned := true, isActive := false }] =
      getPositionAfterLastPinnedTab
        [{ label := "p", isPinned := true, isActive := false },
         { label := "u", isPinned := false, isActive := false }] :=
  pinned_run_is_leading_count.2
    [{ label := "p", isPinned := true, isActive := false }]
    { label := "u", isPinned := false, isActive := false }
    [{ label := "q", isPinned := true, isActive := false }] [] rfl

/-- C4: when the active tab (the first tab with `isActive`, which models
`activeGroup.activeTab`) is pinned, the handler aborts with `NoMove(pinned)`
for every configuration. -/
theorem pinned_active_no_move (tabs : List Tab) (cfg : Config) (a : Tab)
    (hfind : tabs.find? (fun t => t.isActive) = some a)
    (hp : a.isPinned = true) :
    moveTab tabs cfg = MoveDecision.noMove NoMoveReason.pinned := by
  unfold moveTab
  rw [hfind]
  simp [hp]

/-- Witness for C4: a snapshot whose active tab is pinned. -/
theorem pinned_active_no_move_witness :
    moveTab [{ label := "p", isPinned := true, isActive := true }]
        { fixedTabs := 3, activeFirst := false } =
      MoveDecision.noMove NoMoveReason.pinned :=
  pinned_active_no_move _ _ { label := "p", isPinned := true, isActive := true }
    rfl rfl

/-- Counterexample to C5: on a snapshot with no active tab the handler does
not return `NoMove(not-found)` — there is no such branch in the code; the
`getActiveTabIndex` fallback `0` makes it return `NoMove(within-fixed-band)`
instead. -/
theorem no_active_tab_counterexample :
    moveTab [{ label := "a", isPinned := false, isActive := false }]
        { fixedTabs := 3, activeFirst := true } =
      MoveDecision.noMove NoMoveReason.withinFixedBand ∧
    MoveDecision.noMove NoMoveReason.withinFixedBand ≠
      MoveDecision.noMove NoMoveReason.notFound := by
  constructor
  · decide
  · decide

/-- C5 (amended): with no active tab, `getActiveTabIndex` falls back to `0`,
which lies inside the fixed band whenever `fixedTabsCount ≥ 1` (its declared
minimum), so the handler returns `NoMove(within-fixed-band)` — in
particular no move instruction is issued. -/
theorem no_active_tab_no_move (tabs : List Tab) (cfg : Config)
    (h : ∀ t ∈ tabs, t.isActive = false) (hfx : 1 ≤ cfg.fixedTabs) :
    moveTab tabs cfg = MoveDecision.noMove NoMoveReason.withinFixedBand := by
  have hidx : getActiveTabIndex tabs cfg.activeFirst = 0 :=
    activeTabLoop_none tabs.length cfg.activeFirst tabs h 0
  unfold moveTab
  rw [find?_isActive_none tabs h, hidx, getPositionAfterLastPinnedTab_eq]
  simp only [Option.map_none', Option.getD_none, Bool.false_eq_true, if_false]
  split_ifs <;> first | rfl | omega

/-- Witness for C5 (amended). -/
theorem no_active_tab_no_move_witness :
    moveTab [{ label := "a", isPinned := false, isActive := false }]
        { fixedTabs := 1, activeFirst := false } =
      MoveDecision.noMove NoMoveReason.withinFixedBand :=
  no_active_tab_no_move _ _ (by decide) (by decide)

/-- C1: for a snapshot whose active tab (the first tab with `isActive`, at
index `pre.length`) is unpinned, the handler returns
`NoMove(within-fixed-band)` exactly when — with `activeFirst` — the index
is below `fixedTabs + pinnedPrefixLength`, and — without `activeFirst` —
the distance from the end is below `fixedTabs` with no pinned adjustment;
in every other case it decides a move towards the configured edge. -/
theorem fixed_band_decision (cfg : Config) (pre : List Tab) (a : Tab)
    (post : List Tab) (hpre : ∀ t ∈ pre, t.isActive = false)
    (ha : a.isActive = true) (hp : a.isPinned = false) :
    (moveTab (pre ++ a :: post) cfg =
        MoveDecision.noMove NoMoveReason.withinFixedBand ↔
      (if cfg.activeFirst then
        (pre.length : Int) < (cfg.fixedTabs : Int) +
          (((pre ++ a :: post).takeWhile (fun t => t.isPinned)).length : Int)
      else
        ((pre ++ a :: post).length : Int) - (pre.length : Int) - 1 <
          (cfg.fixedTabs : Int))) ∧
    (moveTab (pre ++ a :: post) cfg =
        MoveDecision.noMove NoMoveReason.withinFixedBand ∨
      moveTab (pre ++ a :: post) cfg =
        (if cfg.activeFirst then
          MoveDecision.moveTo Edge.Start
            (((pre ++ a :: post).takeWhile (fun t => t.isPinned)).length : Int)
        else MoveDecision.moveTo Edge.End 0)) := by
  have hfind := find?_isActive_decomp pre a post hpre ha
  have hidx := getActiveTabIndex_decomp cfg.activeFirst pre a post hpre ha
  have hlen : pre.length + 1 ≤ (pre ++ a :: post).length := by
    simp [List.length_append]
  unfold moveTab
  rw [hfind, hidx, getPositionAfterLastPinnedTab_eq]
  simp only [Option.map_some', Option.getD_some, hp, Bool.false_eq_true, if_false]
  cases hA : cfg.activeFirst with
  | false =>
      simp only [Bool.false_eq_true, if_false]
      constructor
      · split_ifs with hc
        · exact ⟨fun _ => by omega, fun _ => rfl⟩
        · exact ⟨fun h => by simp at h, fun hs => absurd hs (by omega)⟩
      · split_ifs with hc
        · exact Or.inl rfl
        · exact Or.inr rfl
  | true =>
      simp only [if_true]
      constructor
      · split_ifs with hc
        · exact ⟨fun _ => hc, fun _ => rfl⟩
        · exact ⟨fun h => by simp at h, fun hs => absurd hs hc⟩
      · split_ifs with hc
        · exact Or.inl rfl
        · exact Or.inr rfl

/-- Witness for C1: an unpinned active tab inside the fixed band. -/
theorem fixed_band_decision_witness :
    moveTab [{ label := "a", isPinned := false, isActive := true },
             { label := "b", isPinned := false, isActive := false }]
        { fixedTabs := 3, activeFirst := true } =
      MoveDecision.noMove NoMoveReason.withinFixedBand :=
  ((fixed_band_decision { fixedTabs := 3, activeFirst := true } []
      { label := "a", isPinned := false, isActive := true }
      [{ label := "b", isPinned := false, isActive := false }]
      (by simp) rfl rfl).1).mpr (by decide)

/-- C2: a `Start`-edge move always carries `offset = pinnedPrefixLength`
(hence `offset` is at least the count of contiguous leading pinned tabs),
and whenever the snapshot has an active tab — the first tab with
`isActive`, at index `pre.length` — the offset is at most that index. -/
theorem start_move_offset (tabs : List Tab) (cfg : Config) (off : Int)
    (h : moveTab tabs cfg = MoveDecision.moveTo Edge.Start off) :
    off = ((tabs.takeWhile (fun t => t.isPinned)).length : Int) ∧
    ((tabs.takeWhile (fun t => t.isPinned)).length : Int) ≤ off ∧
    (∀ (pre : List Tab) (a : Tab) (post : List Tab),
      tabs = pre ++ a :: post → (∀ t ∈ pre, t.isActive = false) →
      a.isActive = true → off ≤ (pre.length : Int)) := by
  unfold moveTab at h
  rw [getPositionAfterLastPinnedTab_eq] at h
  split_ifs at h with h1 h2 h3 h4
  all_goals simp at h
  refine ⟨h.symm, by omega, ?_⟩
  intro pre a post htabs hpre ha
  subst htabs
  rw [find?_isActive_decomp pre a post hpre ha] at h1
  simp only [Option.map_some', Option.getD_some] at h1
  have hpa : a.isPinned = false := by
    cases hpin : a.isPinned
    · rfl
    · exact absurd hpin h1
  have hP := takeWhile_le_of_unpinned pre a post hpa
  omega

/-- Witness for C2: a `Start` move past one pinned tab has offset `1`,
which equals the pinned-prefix length. -/
theorem start_move_offset_witness :
    (1 : Int) =
      (((([{ label := "p", isPinned := true, isActive := false },
           { label := "b", isPinned := false, isActive := false },
           { label := "c", isPinned := false, isActive := false },
           { label := "d", isPinned := false, isActive := true }] :
          List Tab)).takeWhile (fun t => t.isPinned)).length : Int) :=
  (start_move_offset
    [{ label := "p", isPinned := true, isActive := false },
     { label := "b", isPinned := false, isActive := false },
     { label := "c", isPinned := false, isActive := false },
     { label := "d", isPinned := false, isActive := true }]
    { fixedTabs := 1, activeFirst := true } 1 (by decide)).1

/-- C6: the debouncer is a leading-edge state machine — with a positive
delay, an event in the idle state fires and enters the pending state with
the timer set, an event in the pending state fires nothing and changes
nothing, the timer callback returns to idle, and with delay `0` every event
fires with no state change; on the timeline `0, 50, 100, 400` with delay
`300` exactly the events at `0` and `400` fire. -/
theorem debounce_leading_edge :
    (∀ (d : Nat) (s : DebounceState) (t : Nat), 0 < d → s.isDebouncing = false →
      moveTabWithDebounce d s t = ({ isDebouncing := true, expiry := t + d }, true)) ∧
    (∀ (d : Nat) (s : DebounceState) (t : Nat), 0 < d → s.isDebouncing = true →
      moveTabWithDebounce d s t = (s, false)) ∧
    (∀ s : DebounceState, (timerElapse s).isDebouncing = false) ∧
    (∀ (s : DebounceState) (t : Nat), moveTabWithDebounce 0 s t = (s, true)) ∧
    debounceRun 300 { isDebouncing := false, expiry := 0 } [0, 50, 100, 400] =
      [0, 400] := by
  refine ⟨?_, ?_, fun s => rfl, fun s t => rfl, by decide⟩
  · intro d s t hd hs
    have hd0 : ¬d = 0 := by omega
    simp [moveTabWithDebounce, hd0, hs]
  · intro d s t hd hs
    have hd0 : ¬d = 0 := by omega
    simp [moveTabWithDebounce, hd0, hs]

/-- Witness for C6: the transitions at concrete states and times. -/
theorem debounce_leading_edge_witness :
    moveTabWithDebounce 300 { isDebouncing := false, expiry := 0 } 0 =
      ({ isDebouncing := true, expiry := 300 }, true) ∧
    moveTabWithDebounce 300 { isDebouncing := true, expiry := 300 } 50 =
      ({ isDebouncing := true, expiry := 300 }, false) ∧
    moveTabWithDebounce 0 { isDebouncing := false, expiry := 0 } 7 =
      ({ isDebouncing := false, expiry := 0 }, true) :=
  ⟨debounce_leading_edge.1 300 { isDebouncing := false, expiry := 0 } 0
      (by decide) rfl,
   debounce_leading_edge.2.1 300 { isDebouncing := true, expiry := 300 } 50
      (by decide) rfl,
   debounce_leading_edge.2.2.2.1 { isDebouncing := false, expiry := 0 } 7⟩

/-- The initial extension state: the configuration constants, debouncing
off, no subscriptions. -/
def baseState : ExtensionState :=
  { fixedTabs := 3, activeFirst := true, debounceDelay := 300,
    reactionEvent := ReactionEvent.onedit, isDebouncing := false,
    disposables := [] }

/-- C7 is violated by the code: the `switch` in `setupEventListeners` has
cases only for `onfocus` and `onsave`; `onopen` and `none` fall into the
`default` branch, so `none` still subscribes (to the content-change
stream) and `onopen` subscribes to the content-change stream instead of a
tab-opened stream. -/
theorem reaction_router_default_branch :
    (setupEventListeners
        { baseState with reactionEvent := ReactionEvent.none }).disposables =
      [EventStream.contentChange] ∧
    (setupEventListeners
        { baseState with reactionEvent := ReactionEvent.onopen }).disposables =
      [EventStream.contentChange] ∧
    [EventStream.contentChange] ≠ ([] : List EventStream) ∧
    EventStream.contentChange ≠ EventStream.tabOpened ∧
    (setupEventListeners
        { baseState with reactionEvent := ReactionEvent.onfocus }).disposables =
      [EventStream.activeTabChange] ∧
    (setupEventListeners
        { baseState with reactionEvent := ReactionEvent.onsave }).disposables =
      [EventStream.preSave] ∧
    (setupEventListeners
        { baseState with reactionEvent := ReactionEvent.onedit }).disposables =
      [EventStream.contentChange] := by
  refine ⟨rfl, rfl, by decide, by decide, rfl, rfl, rfl⟩

/-- Counterexample to C8: an out-of-range stored value is not clamped —
`fixedTabs = 0` (below the declared minimum `1`) and
`debounceDelay = 6000` (above the declared maximum `5000`) are loaded
verbatim into the globals. -/
theorem load_out_of_range_counterexample :
    (loadConfigurations
        { fixedTabs := some 0, activeFirst := Option.none,
          debounceDelay := some 6000, reactionEvent := Option.none }
        baseState).fixedTabs = 0 ∧
    (loadConfigurations
        { fixedTabs := some 0, activeFirst := Option.none,
          debounceDelay := some 6000, reactionEvent := Option.none }
        baseState).debounceDelay = 6000 ∧
    ¬(1 ≤ (0 : Nat)) ∧ ¬((6000 : Nat) ≤ 5000) := by
  refine ⟨rfl, rfl, by decide, by decide⟩

/-- C8 (amended): `loadConfigurations` replaces absent keys by their
defaults but performs no clamping; the stored values lie inside the
declared ranges only when every host-stored value already does (the stored
`reactionEvent` is one of the enum values by construction of the type). -/
theorem load_in_range_of_valid (cfg : HostConfig) (s : ExtensionState)
    (hf : ∀ v, cfg.fixedTabs = some v → 1 ≤ v ∧ v ≤ 9)
    (hd : ∀ v, cfg.debounceDelay = some v → v ≤ 5000) :
    (1 ≤ (loadConfigurations cfg s).fixedTabs ∧
      (loadConfigurations cfg s).fixedTabs ≤ 9) ∧
    (loadConfigurations cfg s).debounceDelay ≤ 5000 := by
  unfold loadConfigurations
  rcases hcf : cfg.fixedTabs with _ | v <;>
    rcases hcd : cfg.debounceDelay with _ | w <;>
      simp only [hcf, hcd, Option.getD_some, Option.getD_none]
  · exact ⟨⟨by omega, by omega⟩, by omega⟩
  · exact ⟨⟨by omega, by omega⟩, (hd w hcd)⟩
  · exact ⟨⟨(hf v hcf).1, (hf v hcf).2⟩, by omega⟩
  · exact ⟨⟨(hf v hcf).1, (hf v hcf).2⟩, (hd w hcd)⟩

/-- Witness for C8 (amended): a host store with in-range values. -/
theorem load_in_range_of_valid_witness :
    (1 ≤ (loadConfigurations
        { fixedTabs := some 5, activeFirst := some false,
          debounceDelay := some 100, reactionEvent := some ReactionEvent.onsave }
        baseState).fixedTabs ∧
      (loadConfigurations
        { fixedTabs := some 5, activeFirst := some false,
          debounceDelay := some 100, reactionEvent := some ReactionEvent.onsave }
        baseState).fixedTabs ≤ 9) ∧
    (loadConfigurations
        { fixedTabs := some 5, activeFirst := some false,
          debounceDelay := some 100, reactionEvent := some ReactionEvent.onsave }
        baseState).debounceDelay ≤ 5000 :=
  load_in_range_of_valid
    { fixedTabs := some 5, activeFirst := some false,
      debounceDelay := some 100, reactionEvent := some ReactionEvent.onsave }
    baseState
    (fun v hv => by simp only [Option.some.injEq] at hv; omega)
    (fun v hv => by simp only [Option.some.injEq] at hv; omega)

/-- Counterexample to C9: a configuration reload while the debouncer is
pending does not reset it to idle — neither `loadConfigurations` nor
`setupEventListeners` touches `isDebouncing`. -/
theorem reload_pending_counterexample :
    ¬((onConfigChange
        { fixedTabs := Option.none, activeFirst := Option.none,
          debounceDelay := Option.none, reactionEvent := Option.none }
        { baseState with isDebouncing := true }).isDebouncing = false) := by
  decide

/-- C9 (amended): a configuration reload leaves the debounce state exactly
as it was — a pending suppression window survives reconfiguration (until
its originally scheduled timer elapses), and an idle debouncer stays
idle. -/
theorem reload_preserves_debounce (cfg : HostConfig) (s : ExtensionState) :
    (onConfigChange cfg s).isDebouncing = s.isDebouncing := rfl

lemma find?_map_isPinned_congr :
    ∀ (tabs1 tabs2 : List Tab), tabs1.map tabFlags = tabs2.map tabFlags →
      (tabs1.find? (fun t => t.isActive)).map (fun t => t.isPinned) =
        (tabs2.find? (fun t => t.isActive)).map (fun t => t.isPinned)
  | [], [], _ => rfl
  | [], _ :: _, h => by simp at h
  | _ :: _, [], h => by simp at h
  | a :: r1, b :: r2, h => by
      simp only [List.map_cons, List.cons.injEq, tabFlags, Prod.mk.injEq] at h
      obtain ⟨⟨hpin, hact⟩, htail⟩ := h
      by_cases hb : b.isActive
      · have ha' : a.isActive = true := by rw [hact]; exact hb
        rw [List.find?_cons_of_pos r1 ha', List.find?_cons_of_pos r2 hb]
        simp [hpin]
      · have ha' : ¬a.isActive = true := by rw [hact]; exact hb
        rw [List.find?_cons_of_neg r1 ha', List.find?_cons_of_neg r2 hb]
        exact find?_map_isPinned_congr r1 r2 htail

lemma pinnedScan_congr :
    ∀ (tabs1 tabs2 : List Tab), tabs1.map tabFlags = tabs2.map tabFlags →
      ∀ (last : Int) (i : Nat), pinnedScan tabs1 last i = pinnedScan tabs2 last i
  | [], [], _ => fun _ _ => rfl
  | [], _ :: _, h => by simp at h
  | _ :: _, [], h => by simp at h
  | a :: r1, b :: r2, h => by
      simp only [List.map_cons, List.cons.injEq, tabFlags, Prod.mk.injEq] at h
      obtain ⟨⟨hpin, hact⟩, htail⟩ := h
      intro last i
      simp only [pinnedScan, hpin]
      by_cases hb : b.isPinned
      · simp only [hb, if_true]
        exact pinnedScan_congr r1 r2 htail (i : Int) (i + 1)
      · simp [hb]

lemma activeTabLoop_congr :
    ∀ (tabs1 tabs2 : List Tab), tabs1.map tabFlags = tabs2.map tabFlags →
      ∀ (L : Nat) (fl : Bool) (i : Nat),
        activeTabLoop L fl tabs1 i = activeTabLoop L fl tabs2 i
  | [], [], _ => fun _ _ _ => rfl
  | [], _ :: _, h => by simp at h
  | _ :: _, [], h => by simp at h
  | a :: r1, b :: r2, h => by
      simp only [List.map_cons, List.cons.injEq, tabFlags, Prod.mk.injEq] at h
      obtain ⟨⟨hpin, hact⟩, htail⟩ := h
      intro L fl i
      simp only [activeTabLoop, hact]
      by_cases hb : b.isActive
      · simp [hb]
      · simp only [hb, Bool.false_eq_true, if_false]
        exact activeTabLoop_congr r1 r2 htail L fl (i + 1)

/-- C10: the decision never depends on tab labels — two snapshots with the
same length and the same `isPinned`/`isActive` flags position by position
get the identical decision under every configuration. -/
theorem decision_label_independent (tabs1 tabs2 : List Tab) (cfg : Config)
    (h : tabs1.map tabFlags = tabs2.map tabFlags) :
    moveTab tabs1 cfg = moveTab tabs2 cfg := by
  have hlen : tabs1.length = tabs2.length := by
    rw [← List.length_map tabs1 tabFlags, h, List.length_map]
  have h1 := find?_map_isPinned_congr tabs1 tabs2 h
  have h2 := pinnedScan_congr tabs1 tabs2 h (-1) 0
  have h3 := activeTabLoop_congr tabs1 tabs2 h tabs1.length cfg.activeFirst 0
  unfold moveTab getActiveTabIndex getPositionAfterLastPinnedTab
  rw [h1, h2, h3, hlen]

/-- Witness for C10: relabelling every tab leaves the decision unchanged. -/
theorem decision_label_independent_witness :
    moveTab [{ label := "notes.txt", isPinned := true, isActive := false },
             { label := "main.ts", isPinned := false, isActive := true }]
        { fixedTabs := 1, activeFirst := true } =
      moveTab [{ label := "todo.md", isPinned := true, isActive := false },
               { label := "app.py", isPinned := false, isActive := true }]
        { fixedTabs := 1, activeFirst := true } :=
  decision_label_independent _ _ _ (by decide)

